import Mathlib

/-!
Verification development for the apigate-proxy repository.

The development shallowly embeds the Go source:
* `utils` (part_003): `OneWayKeyedHash`, `OneWayKeyedHashNumeric` (HMAC-SHA256
  truncated to 16 bytes, hex / decimal output) and `CompressUserAgent`
  (xxHash-64, big-endian bytes, URL-safe base64, first 11 characters).
* `service.ProxyService` (part_004): `EncryptEmail`, `Check`, `trackKeys`,
  `getFromCache`, `prefetch`, `swapCache`, `NewProxyService`.
* `service.LoggerService` (logger_service.go): `QueueLog`, `triggerFlush`.

Machine integers are modelled as `Nat` with explicit reduction modulo `2^32`
(SHA-256) and `2^64` (xxHash-64).  Go maps (`map[string]bool`) are modelled as
association lists with overwrite-on-insert, Go map membership as `List.lookup`.
The upstream HTTP dependency is a parameter
`Upstream := List String → Except String (List BatchAllowResponseItem)`;
every operation additionally returns the list of batch calls it performed so
that "no upstream call is made" is expressible.
-/

namespace Apigate

/-! ### 32-bit helpers (SHA-256 words) -/

def w32 (x : Nat) : Nat := x % 4294967296

def rotr32 (n w : Nat) : Nat := w32 ((w >>> n) ||| (w <<< (32 - n)))

/-! ### SHA-256 (crypto/sha256, as used by utils.OneWayKeyedHash) -/

def sha256K : List Nat :=
  [1116352408, 1899447441, 3049323471, 3921009573, 961987163, 1508970993,
   2453635748, 2870763221, 3624381080, 310598401, 607225278, 1426881987,
   1925078388, 2162078206, 2614888103, 3248222580, 3835390401, 4022224774,
   264347078, 604807628, 770255983, 1249150122, 1555081692, 1996064986,
   2554220882, 2821834349, 2952996808, 3210313671, 3336571891, 3584528711,
   113926993, 338241895, 666307205, 773529912, 1294757372, 1396182291,
   1695183700, 1986661051, 2177026350, 2456956037, 2730485921, 2820302411,
   3259730800, 3345764771, 3516065817, 3600352804, 4094571909, 275423344,
   430227734, 506948616, 659060556, 883997877, 958139571, 1322822218,
   1537002063, 1747873779, 1955562222, 2024104815, 2227730452, 2361852424,
   2428436474, 2756734187, 3204031479, 3329325298]

def shaCh (x y z : Nat) : Nat := (x &&& y) ^^^ ((4294967295 ^^^ x) &&& z)

def shaMaj (x y z : Nat) : Nat := ((x &&& y) ^^^ (x &&& z)) ^^^ (y &&& z)

def shaBigSigma0 (x : Nat) : Nat := rotr32 2 x ^^^ rotr32 13 x ^^^ rotr32 22 x

def shaBigSigma1 (x : Nat) : Nat := rotr32 6 x ^^^ rotr32 11 x ^^^ rotr32 25 x

def shaSmallSigma0 (x : Nat) : Nat := rotr32 7 x ^^^ rotr32 18 x ^^^ (x >>> 3)

def shaSmallSigma1 (x : Nat) : Nat := rotr32 17 x ^^^ rotr32 19 x ^^^ (x >>> 10)

/-- Extend the 16 message-schedule words to 64 (fuel-driven). -/
def shaExtend : Nat → List Nat → List Nat
  | 0, w => w
  | n + 1, w =>
      let i := w.length
      let x := w32 (shaSmallSigma1 (w.getD (i - 2) 0) + w.getD (i - 7) 0 +
        shaSmallSigma0 (w.getD (i - 15) 0) + w.getD (i - 16) 0)
      shaExtend n (w ++ [x])

/-- One SHA-256 round: state is the 8-tuple (a,b,c,d,e,f,g,h). -/
def shaRound (st : Nat × Nat × Nat × Nat × Nat × Nat × Nat × Nat) (kw : Nat × Nat) :
    Nat × Nat × Nat × Nat × Nat × Nat × Nat × Nat :=
  let (a, b, c, d, e, f, g, h) := st
  let t1 := w32 (h + shaBigSigma1 e + shaCh e f g + kw.1 + kw.2)
  let t2 := w32 (shaBigSigma0 a + shaMaj a b c)
  (w32 (t1 + t2), a, b, c, w32 (d + t1), e, f, g)

/-- Big-endian 32-bit word from four bytes. -/
def word4 (b0 b1 b2 b3 : Nat) : Nat := b0 * 16777216 + b1 * 65536 + b2 * 256 + b3

/-- Split a list into 4-byte big-endian words (fuel-driven). -/
def words4 : Nat → List Nat → List Nat
  | 0, _ => []
  | _ + 1, [] => []
  | fuel + 1, b0 :: b1 :: b2 :: b3 :: rest => word4 b0 b1 b2 b3 :: words4 fuel rest
  | _ + 1, _ => []

/-- Process a single 64-byte block. -/
def shaBlock (hs : Nat × Nat × Nat × Nat × Nat × Nat × Nat × Nat) (block : List Nat) :
    Nat × Nat × Nat × Nat × Nat × Nat × Nat × Nat :=
  let w := shaExtend 48 (words4 block.length block)
  let (a, b, c, d, e, f, g, h) := (w.zip sha256K).foldl shaRound hs
  let (h0, h1, h2, h3, h4, h5, h6, h7) := hs
  (w32 (h0 + a), w32 (h1 + b), w32 (h2 + c), w32 (h3 + d),
   w32 (h4 + e), w32 (h5 + f), w32 (h6 + g), w32 (h7 + h))

/-- Split into 64-byte chunks (fuel-driven; fuel is the list length). -/
def chunks64F : Nat → List Nat → List (List Nat)
  | 0, _ => []
  | _ + 1, [] => []
  | fuel + 1, l => l.take 64 :: chunks64F fuel (l.drop 64)

def chunks64 (l : List Nat) : List (List Nat) := chunks64F l.length l

/-- SHA-256 padding: 0x80, zeros to 56 mod 64, 8-byte big-endian bit length. -/
def shaPad (msg : List Nat) : List Nat :=
  let len := msg.length
  let zeros := (64 + 56 - (len + 1) % 64) % 64
  let bits := len * 8
  msg ++ [128] ++ List.replicate zeros 0 ++
    [bits >>> 56 % 256, bits >>> 48 % 256, bits >>> 40 % 256, bits >>> 32 % 256,
     bits >>> 24 % 256, bits >>> 16 % 256, bits >>> 8 % 256, bits % 256]

/-- Serialize a 32-bit word to 4 big-endian bytes. -/
def wordBytes (w : Nat) : List Nat := [w >>> 24 % 256, w >>> 16 % 256, w >>> 8 % 256, w % 256]

/-- Serialize the final hash state to the 32-byte digest. -/
def digestBytes (t : Nat × Nat × Nat × Nat × Nat × Nat × Nat × Nat) : List Nat :=
  let (h0, h1, h2, h3, h4, h5, h6, h7) := t
  wordBytes h0 ++ wordBytes h1 ++ wordBytes h2 ++ wordBytes h3 ++
    wordBytes h4 ++ wordBytes h5 ++ wordBytes h6 ++ wordBytes h7

/-- SHA-256 digest of a byte list, as a list of 32 bytes. -/
def sha256Bytes (msg : List Nat) : List Nat :=
  digestBytes ((chunks64 (shaPad msg)).foldl shaBlock
    (1779033703, 3144134277, 1013904242, 2773480762,
     1359893119, 2600822924, 528734635, 1541459225))

/-! ### Byte/string conversions -/

/-- UTF-8 encoding of one code point (Go `[]byte(string)` semantics). -/
def utf8Bytes (c : Nat) : List Nat :=
  if c < 128 then [c]
  else if c < 2048 then [192 + c / 64, 128 + c % 64]
  else if c < 65536 then [224 + c / 4096, 128 + c / 64 % 64, 128 + c % 64]
  else [240 + c / 262144, 128 + c / 4096 % 64, 128 + c / 64 % 64, 128 + c % 64]

/-- The bytes of a string, Go `[]byte(s)`. -/
def strBytes (s : String) : List Nat := (s.data.map (fun c => utf8Bytes c.toNat)).flatten

/-- HMAC-SHA256 (crypto/hmac with sha256, block size 64). -/
def hmacSha256 (key msg : List Nat) : List Nat :=
  let key := if 64 < key.length then sha256Bytes key else key
  let key := key ++ List.replicate (64 - key.length) 0
  let ipad := key.map (fun b => b ^^^ 54)
  let opad := key.map (fun b => b ^^^ 92)
  sha256Bytes (opad ++ sha256Bytes (ipad ++ msg))

/-! ### Hex and decimal rendering -/

def hexChars : List Char := "0123456789abcdef".toList

def hexDigit (n : Nat) : Char := hexChars.getD (n % 16) '0'

/-- Lowercase hex of a byte list (encoding/hex). -/
def hexEncode (bs : List Nat) : String :=
  String.mk ((bs.map (fun b => [hexDigit (b / 16), hexDigit b])).flatten)

/-- Decimal digits of a natural number, most significant first (fuel-driven). -/
def decDigitsF : Nat → Nat → List Char
  | 0, _ => []
  | _ + 1, 0 => []
  | fuel + 1, n => decDigitsF fuel (n / 10) ++ [hexChars.getD (n % 10) '0']

def decDigits (n : Nat) : List Char := decDigitsF n n

/-- Base-10 string of a natural number (math/big `Int.String` on nonnegatives). -/
def natToDec (n : Nat) : String :=
  if n = 0 then "0" else String.mk (decDigits n)

/-- Big-endian unsigned integer value of a byte list (big.Int `SetBytes`). -/
def beNat (bs : List Nat) : Nat := bs.foldl (fun acc b => acc * 256 + b) 0

/-! ### utils.OneWayKeyedHash / OneWayKeyedHashNumeric (part_003) -/

/-- HMAC-SHA256 of `data` with `key`, truncated to 16 bytes, lowercase hex. -/
def OneWayKeyedHash (key : List Nat) (data : String) : String :=
  hexEncode ((hmacSha256 key (strBytes data)).take 16)

/-- HMAC-SHA256 of `data` with `key`: first 16 bytes as a big-endian integer, base 10. -/
def OneWayKeyedHashNumeric (key : List Nat) (data : String) : String :=
  natToDec (beNat ((hmacSha256 key (strBytes data)).take 16))

/-! ### xxHash-64 (github.com/cespare/xxhash/v2, seed 0) -/

def w64 (x : Nat) : Nat := x % 18446744073709551616

def rotl64 (r x : Nat) : Nat := w64 ((x <<< r) ||| (x >>> (64 - r)))

def xxPrime1 : Nat := 11400714785074694791
def xxPrime2 : Nat := 14029467366897019727
def xxPrime3 : Nat := 1609587929392839161
def xxPrime4 : Nat := 9650029242287828579
def xxPrime5 : Nat := 2870177450012600261

def xxRound (acc lane : Nat) : Nat := w64 (rotl64 31 (w64 (acc + lane * xxPrime2)) * xxPrime1)

def xxMergeRound (h v : Nat) : Nat := w64 ((h ^^^ xxRound 0 v) * xxPrime1 + xxPrime4)

/-- Little-endian 64-bit lane from 8 bytes. -/
def le64 (bs : List Nat) : Nat :=
  bs.take 8 |>.foldr (fun b acc => acc * 256 + b) 0

/-- Little-endian 32-bit lane from 4 bytes. -/
def le32 (bs : List Nat) : Nat :=
  bs.take 4 |>.foldr (fun b acc => acc * 256 + b) 0

/-- Main 32-byte stripe loop (fuel-driven). -/
def xxStripes : Nat → Nat × Nat × Nat × Nat → List Nat → (Nat × Nat × Nat × Nat) × List Nat
  | 0, vs, bs => (vs, bs)
  | fuel + 1, (v1, v2, v3, v4), bs =>
      if bs.length < 32 then ((v1, v2, v3, v4), bs)
      else
        let v1 := xxRound v1 (le64 (bs.take 8))
        let v2 := xxRound v2 (le64 ((bs.drop 8).take 8))
        let v3 := xxRound v3 (le64 ((bs.drop 16).take 8))
        let v4 := xxRound v4 (le64 ((bs.drop 24).take 8))
        xxStripes fuel (v1, v2, v3, v4) (bs.drop 32)

/-- 8-byte tail loop (fuel-driven). -/
def xxTail8 : Nat → Nat → List Nat → Nat × List Nat
  | 0, h, bs => (h, bs)
  | fuel + 1, h, bs =>
      if bs.length < 8 then (h, bs)
      else
        let k := xxRound 0 (le64 (bs.take 8))
        xxTail8 fuel (w64 (rotl64 27 (h ^^^ k) * xxPrime1 + xxPrime4)) (bs.drop 8)

def xxAvalanche (h : Nat) : Nat :=
  let h := h ^^^ (h >>> 33)
  let h := w64 (h * xxPrime2)
  let h := h ^^^ (h >>> 29)
  let h := w64 (h * xxPrime3)
  h ^^^ (h >>> 32)

/-- xxHash-64 with seed 0 over a byte list. -/
def xxh64 (bs : List Nat) : Nat :=
  let n := bs.length
  let (h, bs) :=
    if 32 ≤ n then
      let v0 : Nat × Nat × Nat × Nat :=
        (w64 (xxPrime1 + xxPrime2), xxPrime2, 0, w64 (0 - xxPrime1 + 18446744073709551616))
      let ((v1, v2, v3, v4), rest) := xxStripes n v0 bs
      let h := w64 (rotl64 1 v1 + rotl64 7 v2 + rotl64 12 v3 + rotl64 18 v4)
      let h := xxMergeRound h v1
      let h := xxMergeRound h v2
      let h := xxMergeRound h v3
      let h := xxMergeRound h v4
      (h, rest)
    else (xxPrime5, bs)
  let h := w64 (h + n)
  let (h, bs) := xxTail8 bs.length h bs
  let (h, bs) :=
    if 4 ≤ bs.length then
      (w64 (rotl64 23 (h ^^^ w64 (le32 (bs.take 4) * xxPrime1)) * xxPrime2 + xxPrime3), bs.drop 4)
    else (h, bs)
  let h := bs.foldl (fun h b => w64 (rotl64 11 (h ^^^ w64 (b * xxPrime5)) * xxPrime1)) h
  xxAvalanche h

/-! ### URL-safe base64 (encoding/base64.URLEncoding) -/

def b64Chars : List Char :=
  "ABCDEFGHIJKLMNOPQRSTUVWXYZabcdefghijklmnopqrstuvwxyz0123456789-_".toList

def b64Char (n : Nat) : Char := b64Chars.getD (n % 64) 'A'

/-- Padded URL-safe base64 of a byte list (fuel-driven over 3-byte groups). -/
def b64EncodeF : Nat → List Nat → List Char
  | 0, _ => []
  | _ + 1, [] => []
  | _ + 1, [a] => [b64Char (a / 4), b64Char (a % 4 * 16), '=', '=']
  | _ + 1, [a, b] => [b64Char (a / 4), b64Char (a % 4 * 16 + b / 16), b64Char (b % 16 * 4), '=']
  | fuel + 1, a :: b :: c :: rest =>
      b64Char (a / 4) :: b64Char (a % 4 * 16 + b / 16) ::
        b64Char (b % 16 * 4 + c / 64) :: b64Char (c % 64) :: b64EncodeF fuel rest

def b64Encode (bs : List Nat) : List Char := b64EncodeF bs.length bs

/-- utils.CompressUserAgent: xxHash-64, big-endian 8 bytes, base64url, first 11 chars. -/
def CompressUserAgent (ua : String) : String :=
  let sum := xxh64 (strBytes ua)
  let buf := [sum >>> 56 % 256, sum >>> 48 % 256, sum >>> 40 % 256, sum >>> 32 % 256,
              sum >>> 24 % 256, sum >>> 16 % 256, sum >>> 8 % 256, sum % 256]
  String.mk ((b64Encode buf).take 11)

/-! ### Data model (config.Config, models, part_002 / part_003) -/

/-- The configuration fields consumed by the embedded services.
`EmailEncryptionEnabled` is the flag read by `ProxyService.EncryptEmail`
(part_004 line 92) and set by the test fixture; `LogBatchSize` is a Go `int`,
hence `Int`. -/
structure Config where
  emailEncryptionEnabled : Bool
  emailEncryptionKey : String
  emailEncryptionFormat : String
  logBatchSize : Int
deriving DecidableEq, Repr

structure AllowRequest where
  ipAddress : String
  email : String
  userAgent : String
deriving DecidableEq, Repr

structure AllowResponse where
  allow : Bool
  status : String
  message : String
deriving DecidableEq, Repr

structure BatchAllowResponseItem where
  key : String
  allow : Bool
deriving DecidableEq, Repr

/-- The upstream batch endpoint: consumes a key list, returns per-key verdicts
or an error (transport failure, non-2xx status, or JSON decode failure). -/
def Upstream : Type := List String → Except String (List BatchAllowResponseItem)

/-! ### Go map / set operations over association lists -/

/-- Go `m[k] = v`: overwrite the binding for `k`, append if absent. -/
def mapInsert (m : List (String × Bool)) (k : String) (v : Bool) : List (String × Bool) :=
  match m with
  | [] => [(k, v)]
  | (k', v') :: rest => if k' = k then (k, v) :: rest else (k', v') :: mapInsert rest k v

/-- Go `v, ok := m[k]`: the value (zero value `false` when absent) and presence. -/
def mapGet (m : List (String × Bool)) (k : String) : Bool × Bool :=
  (((m.lookup k).getD false), (m.lookup k).isSome)

/-- Go `m[k] = struct{}{}` on a set-map. -/
def setInsert (l : List String) (k : String) : List String :=
  if k ∈ l then l else l ++ [k]

/-! ### service.ProxyService state (part_004) -/

structure ProxyState where
  currentCache : List (String × Bool)
  pendingCache : Option (List (String × Bool))
  batchedKeys : List String
  warmUp : Bool
deriving DecidableEq, Repr

/-- NewProxyService: empty current cache, nil pending cache, empty tracking
set, warmup on. -/
def initialState : ProxyState :=
  { currentCache := [], pendingCache := none, batchedKeys := [], warmUp := true }

/-- ProxyService.EncryptEmail (part_004 lines 91-99). -/
def EncryptEmail (cfg : Config) (email : String) : String :=
  if email = "" ∨ cfg.emailEncryptionEnabled = false ∨ cfg.emailEncryptionKey = "" then email
  else if cfg.emailEncryptionFormat = "numeric" then
    OneWayKeyedHashNumeric (strBytes cfg.emailEncryptionKey) email
  else
    OneWayKeyedHash (strBytes cfg.emailEncryptionKey) email

/-- The resolved request built at the top of Check (part_004 lines 105-108):
a copy whose email is replaced by its token when non-empty. -/
def resolveReq (cfg : Config) (req : AllowRequest) : AllowRequest :=
  if req.email ≠ "" then { req with email := EncryptEmail cfg req.email } else req

/-- ProxyService.trackKeys (part_004 lines 183-198): insert each non-empty key
(IP literal, email as given, hashed user-agent) into the tracking set. -/
def trackKeys (s : ProxyState) (req : AllowRequest) : ProxyState :=
  let b := s.batchedKeys
  let b := if req.ipAddress ≠ "" then setInsert b req.ipAddress else b
  let b := if req.email ≠ "" then setInsert b req.email else b
  let b := if req.userAgent ≠ "" then setInsert b (CompressUserAgent req.userAgent) else b
  { s with batchedKeys := b }

/-- ProxyService.getFromCache (part_004 lines 200-252), returning
(decision, found); boolean conditions as in the Go source. -/
def getFromCache (cache : List (String × Bool)) (req : AllowRequest) : Bool × Bool :=
  let (ipStatus, ipKnown) := mapGet cache req.ipAddress
  let (emailStatus, emailKnown) := mapGet cache req.email
  if req.ipAddress != "" && ipKnown && !ipStatus then (false, true)
  else if req.email != "" && emailKnown && !emailStatus then (false, true)
  else
    let (uaStatus, uaKnown) :=
      if req.userAgent != "" then mapGet cache (CompressUserAgent req.userAgent)
      else (false, false)
    if req.userAgent != "" && uaKnown && !uaStatus then (false, true)
    else
      let ipOk := req.ipAddress == "" || (ipKnown && ipStatus)
      let emailOk := req.email == "" || (emailKnown && emailStatus)
      let uaOk := req.userAgent == "" || (uaKnown && uaStatus)
      if ipOk && emailOk && uaOk then
        if req.ipAddress == "" && req.email == "" && req.userAgent == "" then (false, false)
        else if (req.ipAddress != "" && !ipKnown) || (req.email != "" && !emailKnown) ||
            (req.userAgent != "" && !uaKnown) then (false, false)
        else (true, true)
      else (false, false)

/-- The key list collected from a resolved request on a cache miss
(part_004 lines 140-150). -/
def requestKeys (reqFor : AllowRequest) : List String :=
  (if reqFor.ipAddress ≠ "" then [reqFor.ipAddress] else []) ++
  (if reqFor.email ≠ "" then [reqFor.email] else []) ++
  (if reqFor.userAgent ≠ "" then [CompressUserAgent reqFor.userAgent] else [])

/-- The outcome of a Check: the Go `(AllowResponse, error)` pair as an
`Except`, the post-state, and the batch calls made to the upstream. -/
def CheckResult : Type := Except String AllowResponse × ProxyState × List (List String)

/-- The cache-miss fallback of Check (part_004 lines 139-180). -/
def checkMiss (up : Upstream) (s1 : ProxyState) (reqFor : AllowRequest) : CheckResult :=
  let keys := requestKeys reqFor
  if keys = [] then
    (.ok { allow := false, status := "error", message := "No keys provided" }, s1, [])
  else
    match up keys with
    | .error e => (.error e, s1, [keys])
    | .ok results =>
        let cache' := results.foldl (fun c item => mapInsert c item.key item.allow)
          s1.currentCache
        let allowed := results.all (·.allow)
        (.ok { allow := allowed, status := "success",
               message := if allowed then "Allowed (Live Check)" else "Blocked (Live Check)" },
         { s1 with currentCache := cache' }, [keys])

/-- ProxyService.Check (part_004 lines 101-181). -/
def Check (cfg : Config) (up : Upstream) (s : ProxyState) (req : AllowRequest) : CheckResult :=
  let reqFor := resolveReq cfg req
  let s1 := trackKeys s reqFor
  if s1.warmUp then
    (.ok { allow := true, status := "success", message := "Warmup: Allowed" }, s1, [])
  else
    let (decision, found) := getFromCache s1.currentCache reqFor
    if found then
      (.ok { allow := decision, status := "success",
             message := if decision then "Cache Hit" else "Cache Hit: Blocked" }, s1, [])
    else
      checkMiss up s1 reqFor

/-- ProxyService.prefetch (part_004 lines 254-293): snapshot and reset the
tracking set, then (if non-empty) batch-query the upstream and on success
install the freshly built map as the pending cache. -/
def prefetch (up : Upstream) (s : ProxyState) : ProxyState × List (List String) :=
  let keys := s.batchedKeys
  let s1 := { s with batchedKeys := [] }
  if keys = [] then (s1, [])
  else
    match up keys with
    | .error _ => (s1, [keys])
    | .ok results =>
        let newCache := results.foldl (fun c item => mapInsert c item.key item.allow) []
        ({ s1 with pendingCache := some newCache }, [keys])

/-- ProxyService.swapCache (part_004 lines 295-317). -/
def swapCache (s : ProxyState) : ProxyState :=
  let s1 := { s with warmUp := false }
  match s1.pendingCache with
  | some p => { s1 with currentCache := p, pendingCache := none }
  | none => { s1 with currentCache := [] }

/-! ### Engine step language (for the temporal claim about warmup) -/

inductive EngineOp where
  | check (req : AllowRequest)
  | doPrefetch
  | doSwap
deriving DecidableEq, Repr

def applyOp (cfg : Config) (up : Upstream) (s : ProxyState) : EngineOp → ProxyState
  | .check req => (Check cfg up s req).2.1
  | .doPrefetch => (prefetch up s).1
  | .doSwap => swapCache s

def runOps (cfg : Config) (up : Upstream) (s : ProxyState) (ops : List EngineOp) : ProxyState :=
  ops.foldl (applyOp cfg up) s

def EngineOp.isSwap : EngineOp → Bool
  | .doSwap => true
  | _ => false

/-! ### service.LoggerService (logger_service.go) -/

structure LogRequest where
  ipAddress : String
  email : String
  userAgent : String
  httpMethod : String
  endpoint : String
deriving DecidableEq, Repr

structure LoggerState where
  buffer : List LogRequest
deriving DecidableEq, Repr

/-- The log sink `POST (base)/api/logs`: true means a 2xx status. -/
def LogSink : Type := List LogRequest → Bool

/-- The email replacement at the top of QueueLog (logger_service.go lines
53-60): hash whenever a key is configured and the email is non-empty,
regardless of the enabled flag. -/
def queueLogEntry (cfg : Config) (req : LogRequest) : LogRequest :=
  if cfg.emailEncryptionKey ≠ "" ∧ req.email ≠ "" then
    if cfg.emailEncryptionFormat = "numeric" then
      { req with email := OneWayKeyedHashNumeric (strBytes cfg.emailEncryptionKey) req.email }
    else
      { req with email := OneWayKeyedHash (strBytes cfg.emailEncryptionKey) req.email }
  else req

/-- LoggerService.triggerFlush (lines 75-93) composed with sendBatch (lines
95-128): drain the whole buffer, post it once; the sink outcome (recorded in
the trace) never feeds back into the state — a failed batch is dropped. -/
def triggerFlush (sink : LogSink) (s : LoggerState) :
    LoggerState × List (List LogRequest × Bool) :=
  if s.buffer = [] then (s, [])
  else ({ buffer := [] }, [(s.buffer, sink s.buffer)])

/-- LoggerService.QueueLog (lines 52-71). -/
def QueueLog (cfg : Config) (sink : LogSink) (s : LoggerState) (req : LogRequest) :
    LoggerState × List (List LogRequest × Bool) :=
  let req' := queueLogEntry cfg req
  let buffer' := s.buffer ++ [req']
  let shouldFlush : Bool := cfg.logBatchSize ≤ (buffer'.length : Int)
  if shouldFlush then triggerFlush sink { buffer := buffer' }
  else ({ buffer := buffer' }, [])

/-! ### Specification-side definitions

These follow the spec's words (partial-knowledge cache semantics, §4.3) and
are compared against `getFromCache` / `Check` in the theorems below. -/

/-- Abstract core of the cache consultation: the decision logic of
`getFromCache` with the per-field emptiness bit (`ipEq` is "the field equals
the empty string") and the cache lookup result abstracted.  Instantiating
`ipEq := req.ipAddress == ""` (etc.) and the lookups recovers `getFromCache`
definitionally. -/
def gfcCore (ipEq : Bool) (ipL : Option Bool) (emEq : Bool) (emL : Option Bool)
    (uaEq : Bool) (uaL : Option Bool) : Bool × Bool :=
  let (ipStatus, ipKnown) := (ipL.getD false, ipL.isSome)
  let (emailStatus, emailKnown) := (emL.getD false, emL.isSome)
  if !ipEq && ipKnown && !ipStatus then (false, true)
  else if !emEq && emailKnown && !emailStatus then (false, true)
  else
    let (uaStatus, uaKnown) :=
      if !uaEq then (uaL.getD false, uaL.isSome)
      else (false, false)
    if !uaEq && uaKnown && !uaStatus then (false, true)
    else
      let ipOk := ipEq || (ipKnown && ipStatus)
      let emailOk := emEq || (emailKnown && emailStatus)
      let uaOk := uaEq || (uaKnown && uaStatus)
      if ipOk && emailOk && uaOk then
        if ipEq && emEq && uaEq then (false, false)
        else if (!ipEq && !ipKnown) || (!emEq && !emailKnown) ||
            (!uaEq && !uaKnown) then (false, false)
        else (true, true)
      else (false, false)

/-- Spec rule 1 precondition over the abstract tuple: some non-empty field is
known and denied. -/
def coreDeny (ipEq : Bool) (ipL : Option Bool) (emEq : Bool) (emL : Option Bool)
    (uaEq : Bool) (uaL : Option Bool) : Prop :=
  (ipEq = false ∧ ipL = some false) ∨ (emEq = false ∧ emL = some false) ∨
    (uaEq = false ∧ uaL = some false)

/-- Spec rule 2 precondition over the abstract tuple: every non-empty field is
known and allowed. -/
def coreAllAllow (ipEq : Bool) (ipL : Option Bool) (emEq : Bool) (emL : Option Bool)
    (uaEq : Bool) (uaL : Option Bool) : Prop :=
  (ipEq = false → ipL = some true) ∧ (emEq = false → emL = some true) ∧
    (uaEq = false → uaL = some true)

/-- Spec rule 1, stated over the cache: some key of the resolved request is
present with verdict deny. -/
def cacheDeny (cache : List (String × Bool)) (r : AllowRequest) : Prop :=
  ∃ k ∈ requestKeys r, cache.lookup k = some false

/-- Spec rule 2, stated over the cache: every key of the resolved request is
present with verdict allow. -/
def cacheAllAllow (cache : List (String × Bool)) (r : AllowRequest) : Prop :=
  ∀ k ∈ requestKeys r, cache.lookup k = some true

/-- The final binding a batch-result list leaves for key `k` (later entries
overwrite earlier ones, as in the Go write loop). -/
def lastWrite : List BatchAllowResponseItem → String → Option Bool
  | [], _ => none
  | item :: rest, k =>
      match lastWrite rest k with
      | some v => some v
      | none => if item.key = k then some item.allow else none

/-- The cache after the result-processing loop of Check (part_004 165-172). -/
def insertResults (c : List (String × Bool)) (results : List BatchAllowResponseItem) :
    List (String × Bool) :=
  results.foldl (fun c item => mapInsert c item.key item.allow) c


/-! ### Decidability instances and concrete fixtures -/

instance cacheDenyDecidable (cache : List (String × Bool)) (r : AllowRequest) :
    Decidable (cacheDeny cache r) := by
  unfold cacheDeny; infer_instance

instance cacheAllAllowDecidable (cache : List (String × Bool)) (r : AllowRequest) :
    Decidable (cacheAllAllow cache r) := by
  unfold cacheAllAllow; infer_instance

-- Fixtures (will live in the definitions region of the final file)
def testKey : String := "0123456789abcdef0123456789abcdef"

def cfgPlain : Config :=
  { emailEncryptionEnabled := false, emailEncryptionKey := "",
    emailEncryptionFormat := "hex", logBatchSize := 50 }

def cfgHex : Config :=
  { emailEncryptionEnabled := true, emailEncryptionKey := testKey,
    emailEncryptionFormat := "hex", logBatchSize := 50 }

def cfgNum : Config :=
  { emailEncryptionEnabled := true, emailEncryptionKey := testKey,
    emailEncryptionFormat := "numeric", logBatchSize := 50 }

def cfgFlagOff : Config :=
  { emailEncryptionEnabled := false, emailEncryptionKey := testKey,
    emailEncryptionFormat := "hex", logBatchSize := 50 }

def upNone : Upstream := fun _ => .error "upstream unreachable"

def upExtraDeny : Upstream := fun _ => .ok [⟨"1.2.3.4", true⟩, ⟨"9.9.9.9", false⟩]

def upAllowAll : Upstream := fun keys => .ok (keys.map fun k => ⟨k, true⟩)

def resIp3 : List BatchAllowResponseItem := [{ key := "9.9.9.9", allow := true }]

def sCached : ProxyState :=
  { currentCache := [("1.2.3.4", false), ("5.6.7.8", true)],
    pendingCache := none, batchedKeys := [], warmUp := false }

def sFresh : ProxyState :=
  { currentCache := [], pendingCache := none, batchedKeys := [], warmUp := false }

def sPre : ProxyState :=
  { currentCache := [], pendingCache := none, batchedKeys := ["1.2.3.4"], warmUp := true }

def reqIp1 : AllowRequest := { ipAddress := "1.2.3.4", email := "", userAgent := "" }
def reqIp2 : AllowRequest := { ipAddress := "5.6.7.8", email := "", userAgent := "" }
def reqIp3 : AllowRequest := { ipAddress := "9.9.9.9", email := "", userAgent := "" }
def reqNone : AllowRequest := { ipAddress := "", email := "", userAgent := "" }

def sinkOk : LogSink := fun _ => true
def sinkFail : LogSink := fun _ => false

def logA : LogRequest :=
  { ipAddress := "1.1.1.1", email := "a@b.com", userAgent := "UA",
    httpMethod := "GET", endpoint := "/login" }

def logBlocked : LogRequest :=
  { ipAddress := "1.2.3.4", email := "blocked@test.com", userAgent := "UA",
    httpMethod := "POST", endpoint := "/login" }

def reqEmailOnly : AllowRequest :=
  { ipAddress := "", email := "blocked@test.com", userAgent := "" }

def cfgLog2 : Config :=
  { emailEncryptionEnabled := true, emailEncryptionKey := testKey,
    emailEncryptionFormat := "hex", logBatchSize := 2 }

end Apigate

section ApigateVectors

open Apigate

set_option maxRecDepth 100000

-- Reference vectors: FIPS 180-2 SHA-256, xxHash-64 (seed 0), and the
-- repository's own test fixture (key "0123456789abcdef0123456789abcdef").
example : hexEncode (sha256Bytes (strBytes "abc")) =
    "ba7816bf8f01cfea414140de5dae2223b00361a396177a9cb410ff61f20015ad" := by decide

example : hexEncode (sha256Bytes []) =
    "e3b0c44298fc1c149afbf4c8996fb92427ae41e4649b934ca495991b7852b855" := by decide

example : OneWayKeyedHash (strBytes "0123456789abcdef0123456789abcdef") "blocked@test.com" =
    "20fb00f087c5981886199d435b49c3d7" := by decide

example : OneWayKeyedHashNumeric (strBytes "0123456789abcdef0123456789abcdef")
    "blocked@test.com" = "43838581433387906055559850526637671383" := by decide

example : xxh64 [] = 0xef46db3751d8e999 := by decide

example : xxh64 (strBytes "abc") = 0x44bc2cf5ad770999 := by decide

example : CompressUserAgent "Mozilla/5.0" = "UDbBpEj8cNs" := by decide

example : CompressUserAgent "" = "70bbN1HY6Zk" := by decide

end ApigateVectors

namespace Apigate

set_option maxRecDepth 100000

lemma trackKeys_warmUp (s : ProxyState) (r : AllowRequest) :
    (trackKeys s r).warmUp = s.warmUp := rfl

lemma trackKeys_currentCache (s : ProxyState) (r : AllowRequest) :
    (trackKeys s r).currentCache = s.currentCache := rfl

lemma trackKeys_pendingCache (s : ProxyState) (r : AllowRequest) :
    (trackKeys s r).pendingCache = s.pendingCache := rfl

lemma getFromCache_eq_core (cache : List (String × Bool)) (r : AllowRequest) :
    getFromCache cache r =
      gfcCore (r.ipAddress == "") (cache.lookup r.ipAddress)
        (r.email == "") (cache.lookup r.email)
        (r.userAgent == "") (cache.lookup (CompressUserAgent r.userAgent)) := rfl

lemma gfcCore_denyCase (ipEq : Bool) (ipL : Option Bool) (emEq : Bool) (emL : Option Bool)
    (uaEq : Bool) (uaL : Option Bool) :
    coreDeny ipEq ipL emEq emL uaEq uaL →
      gfcCore ipEq ipL emEq emL uaEq uaL = (false, true) := by
  revert ipEq ipL emEq emL uaEq uaL
  unfold coreDeny
  decide

set_option synthInstance.maxSize 1024 in
lemma gfcCore_allowCase (ipEq : Bool) (ipL : Option Bool) (emEq : Bool) (emL : Option Bool)
    (uaEq : Bool) (uaL : Option Bool) :
    ¬coreDeny ipEq ipL emEq emL uaEq uaL →
      coreAllAllow ipEq ipL emEq emL uaEq uaL →
      (ipEq = false ∨ emEq = false ∨ uaEq = false) →
      gfcCore ipEq ipL emEq emL uaEq uaL = (true, true) := by
  revert ipEq ipL emEq emL uaEq uaL
  unfold coreDeny coreAllAllow
  decide

set_option synthInstance.maxSize 1024 in
lemma gfcCore_missCase (ipEq : Bool) (ipL : Option Bool) (emEq : Bool) (emL : Option Bool)
    (uaEq : Bool) (uaL : Option Bool) :
    ¬coreDeny ipEq ipL emEq emL uaEq uaL →
      ¬coreAllAllow ipEq ipL emEq emL uaEq uaL →
      gfcCore ipEq ipL emEq emL uaEq uaL = (false, false) := by
  revert ipEq ipL emEq emL uaEq uaL
  unfold coreDeny coreAllAllow
  decide

lemma mem_requestKeys (r : AllowRequest) (k : String) :
    k ∈ requestKeys r ↔
      (r.ipAddress ≠ "" ∧ k = r.ipAddress) ∨ (r.email ≠ "" ∧ k = r.email) ∨
        (r.userAgent ≠ "" ∧ k = CompressUserAgent r.userAgent) := by
  by_cases hip : r.ipAddress = "" <;> by_cases hem : r.email = "" <;>
    by_cases hua : r.userAgent = "" <;>
    simp [requestKeys, hip, hem, hua]

lemma cacheDeny_iff (cache : List (String × Bool)) (r : AllowRequest) :
    cacheDeny cache r ↔
      coreDeny (r.ipAddress == "") (cache.lookup r.ipAddress)
        (r.email == "") (cache.lookup r.email)
        (r.userAgent == "") (cache.lookup (CompressUserAgent r.userAgent)) := by
  unfold cacheDeny coreDeny
  constructor
  · rintro ⟨k, hk, hl⟩
    rcases (mem_requestKeys r k).1 hk with ⟨h, rfl⟩ | ⟨h, rfl⟩ | ⟨h, rfl⟩
    · exact Or.inl ⟨by simp [h], hl⟩
    · exact Or.inr (Or.inl ⟨by simp [h], hl⟩)
    · exact Or.inr (Or.inr ⟨by simp [h], hl⟩)
  · rintro (⟨h, hl⟩ | ⟨h, hl⟩ | ⟨h, hl⟩)
    · exact ⟨r.ipAddress, (mem_requestKeys r _).2 (Or.inl ⟨by simpa using h, rfl⟩), hl⟩
    · exact ⟨r.email, (mem_requestKeys r _).2 (Or.inr (Or.inl ⟨by simpa using h, rfl⟩)), hl⟩
    · exact ⟨CompressUserAgent r.userAgent,
        (mem_requestKeys r _).2 (Or.inr (Or.inr ⟨by simpa using h, rfl⟩)), hl⟩

lemma cacheAllAllow_iff (cache : List (String × Bool)) (r : AllowRequest) :
    cacheAllAllow cache r ↔
      coreAllAllow (r.ipAddress == "") (cache.lookup r.ipAddress)
        (r.email == "") (cache.lookup r.email)
        (r.userAgent == "") (cache.lookup (CompressUserAgent r.userAgent)) := by
  unfold cacheAllAllow coreAllAllow
  constructor
  · intro h
    refine ⟨fun hip => ?_, fun hem => ?_, fun hua => ?_⟩
    · exact h _ ((mem_requestKeys r _).2 (Or.inl ⟨by simpa using hip, rfl⟩))
    · exact h _ ((mem_requestKeys r _).2 (Or.inr (Or.inl ⟨by simpa using hem, rfl⟩)))
    · exact h _ ((mem_requestKeys r _).2 (Or.inr (Or.inr ⟨by simpa using hua, rfl⟩)))
  · rintro ⟨h1, h2, h3⟩ k hk
    rcases (mem_requestKeys r k).1 hk with ⟨h, rfl⟩ | ⟨h, rfl⟩ | ⟨h, rfl⟩
    · exact h1 (by simpa using h)
    · exact h2 (by simpa using h)
    · exact h3 (by simpa using h)

lemma requestKeys_ne_nil_iff (r : AllowRequest) :
    requestKeys r ≠ [] ↔
      ((r.ipAddress == "") = false ∨ (r.email == "") = false ∨
        (r.userAgent == "") = false) := by
  by_cases hip : r.ipAddress = "" <;> by_cases hem : r.email = "" <;>
    by_cases hua : r.userAgent = "" <;>
    simp [requestKeys, hip, hem, hua]

lemma getFromCache_deny (cache : List (String × Bool)) (r : AllowRequest)
    (h : cacheDeny cache r) : getFromCache cache r = (false, true) := by
  rw [getFromCache_eq_core]
  exact gfcCore_denyCase _ _ _ _ _ _ ((cacheDeny_iff cache r).1 h)

lemma getFromCache_allAllow (cache : List (String × Bool)) (r : AllowRequest)
    (hd : ¬cacheDeny cache r) (ha : cacheAllAllow cache r) (hne : requestKeys r ≠ []) :
    getFromCache cache r = (true, true) := by
  rw [getFromCache_eq_core]
  exact gfcCore_allowCase _ _ _ _ _ _ (fun hc => hd ((cacheDeny_iff cache r).2 hc))
    ((cacheAllAllow_iff cache r).1 ha) ((requestKeys_ne_nil_iff r).1 hne)

lemma getFromCache_missOf (cache : List (String × Bool)) (r : AllowRequest)
    (hd : ¬cacheDeny cache r) (ha : ¬cacheAllAllow cache r) :
    getFromCache cache r = (false, false) := by
  rw [getFromCache_eq_core]
  exact gfcCore_missCase _ _ _ _ _ _ (fun hc => hd ((cacheDeny_iff cache r).2 hc))
    (fun hc => ha ((cacheAllAllow_iff cache r).2 hc))

lemma Check_warmup (cfg : Config) (up : Upstream) (s : ProxyState) (req : AllowRequest)
    (hw : s.warmUp = true) :
    Check cfg up s req =
      (.ok { allow := true, status := "success", message := "Warmup: Allowed" },
       trackKeys s (resolveReq cfg req), []) := by
  have h1 : (trackKeys s (resolveReq cfg req)).warmUp = true := by
    rw [trackKeys_warmUp]; exact hw
  simp [Check, h1]

lemma Check_found (cfg : Config) (up : Upstream) (s : ProxyState) (req : AllowRequest)
    (d : Bool) (hw : s.warmUp = false)
    (hg : getFromCache s.currentCache (resolveReq cfg req) = (d, true)) :
    Check cfg up s req =
      (.ok { allow := d, status := "success",
             message := if d then "Cache Hit" else "Cache Hit: Blocked" },
       trackKeys s (resolveReq cfg req), []) := by
  have h1 : (trackKeys s (resolveReq cfg req)).warmUp = false := by
    rw [trackKeys_warmUp]; exact hw
  have h2 : getFromCache (trackKeys s (resolveReq cfg req)).currentCache
      (resolveReq cfg req) = (d, true) := by
    rw [trackKeys_currentCache]; exact hg
  simp [Check, h1, h2]

lemma Check_missPath (cfg : Config) (up : Upstream) (s : ProxyState) (req : AllowRequest)
    (hw : s.warmUp = false)
    (hg : getFromCache s.currentCache (resolveReq cfg req) = (false, false)) :
    Check cfg up s req = checkMiss up (trackKeys s (resolveReq cfg req)) (resolveReq cfg req) := by
  have h1 : (trackKeys s (resolveReq cfg req)).warmUp = false := by
    rw [trackKeys_warmUp]; exact hw
  have h2 : getFromCache (trackKeys s (resolveReq cfg req)).currentCache
      (resolveReq cfg req) = (false, false) := by
    rw [trackKeys_currentCache]; exact hg
  simp [Check, h1, h2]

lemma checkMiss_noKeys (up : Upstream) (s1 : ProxyState) (reqFor : AllowRequest)
    (hk : requestKeys reqFor = []) :
    checkMiss up s1 reqFor =
      (.ok { allow := false, status := "error", message := "No keys provided" }, s1, []) := by
  simp [checkMiss, hk]

lemma checkMiss_error (up : Upstream) (s1 : ProxyState) (reqFor : AllowRequest) (e : String)
    (hk : requestKeys reqFor ≠ []) (hu : up (requestKeys reqFor) = .error e) :
    checkMiss up s1 reqFor = (.error e, s1, [requestKeys reqFor]) := by
  simp [checkMiss, hk, hu]

lemma checkMiss_ok (up : Upstream) (s1 : ProxyState) (reqFor : AllowRequest)
    (results : List BatchAllowResponseItem)
    (hk : requestKeys reqFor ≠ []) (hu : up (requestKeys reqFor) = .ok results) :
    checkMiss up s1 reqFor =
      (.ok { allow := results.all (·.allow), status := "success",
             message := if results.all (·.allow) then "Allowed (Live Check)"
               else "Blocked (Live Check)" },
       { s1 with currentCache := insertResults s1.currentCache results },
       [requestKeys reqFor]) := by
  simp [checkMiss, hk, hu, insertResults]

lemma lookup_mapInsert (m : List (String × Bool)) (k : String) (v : Bool) (q : String) :
    (mapInsert m k v).lookup q = if q = k then some v else m.lookup q := by
  induction m with
  | nil =>
      by_cases h : q = k
      · subst h; simp [mapInsert, List.lookup]
      · have hbe : (q == k) = false := beq_eq_false_iff_ne.mpr h
        simp [mapInsert, List.lookup, hbe, h]
  | cons hd tl ih =>
      obtain ⟨k', v'⟩ := hd
      by_cases hk : k' = k
      · subst hk
        by_cases h : q = k'
        · subst h; simp [mapInsert, List.lookup]
        · have hbe : (q == k') = false := beq_eq_false_iff_ne.mpr h
          simp [mapInsert, List.lookup, hbe, h]
      · have hmi : mapInsert ((k', v') :: tl) k v = (k', v') :: mapInsert tl k v := by
          simp [mapInsert, hk]
        rw [hmi]
        by_cases h : q = k'
        · subst h
          have hqk : ¬q = k := hk
          simp [List.lookup, hqk]
        · have hbe : (q == k') = false := beq_eq_false_iff_ne.mpr h
          simp [List.lookup, hbe, ih]

lemma lookup_insertResults (results : List BatchAllowResponseItem)
    (c : List (String × Bool)) (q : String) :
    (insertResults c results).lookup q = (lastWrite results q).or (c.lookup q) := by
  induction results generalizing c with
  | nil => simp [insertResults, lastWrite]
  | cons item rest ih =>
      have step : insertResults c (item :: rest) =
          insertResults (mapInsert c item.key item.allow) rest := rfl
      rw [step, ih]
      cases hlw : lastWrite rest q with
      | some v => simp [lastWrite, hlw]
      | none =>
          by_cases h : item.key = q
          · simp [lastWrite, hlw, h, lookup_mapInsert]
          · simp [lastWrite, hlw, lookup_mapInsert, h, Ne.symm h]

lemma lastWrite_some {results : List BatchAllowResponseItem} {q : String} {v : Bool}
    (h : lastWrite results q = some v) :
    ∃ item ∈ results, item.key = q ∧ item.allow = v := by
  induction results with
  | nil => simp [lastWrite] at h
  | cons item rest ih =>
      rw [lastWrite] at h
      cases hlw : lastWrite rest q with
      | some w =>
          rw [hlw] at h
          obtain ⟨it, hit, hk, ha⟩ := ih (hlw.trans (by simpa using h))
          exact ⟨it, List.mem_cons_of_mem _ hit, hk, ha⟩
      | none =>
          rw [hlw] at h
          by_cases hk : item.key = q
          · rw [if_pos hk] at h
            exact ⟨item, List.mem_cons_self _ _, hk, by simpa using h⟩
          · rw [if_neg hk] at h
            exact absurd h (by simp)

lemma lastWrite_isSome_of_mem {results : List BatchAllowResponseItem} {q : String}
    (h : q ∈ results.map (·.key)) : (lastWrite results q).isSome = true := by
  induction results with
  | nil => simp at h
  | cons item rest ih =>
      rw [lastWrite]
      cases hlw : lastWrite rest q with
      | some w => simp
      | none =>
          simp only [List.map_cons, List.mem_cons] at h
          rcases h with h | h
          · simp [h.symm]
          · have := ih h
            rw [hlw] at this
            simp at this

lemma lastWrite_of_nodupKeys {results : List BatchAllowResponseItem}
    (hnd : (results.map (·.key)).Nodup) {item : BatchAllowResponseItem}
    (h : item ∈ results) : lastWrite results item.key = some item.allow := by
  induction results with
  | nil => simp at h
  | cons hd rest ih =>
      rw [lastWrite]
      rcases List.mem_cons.1 h with rfl | hmem
      · cases hlw : lastWrite rest item.key with
        | some w =>
            obtain ⟨it, hit, hkey, _⟩ := lastWrite_some hlw
            have : item.key ∉ rest.map (·.key) := by
              simpa using (List.nodup_cons.1 hnd).1
            exact absurd (hkey ▸ List.mem_map_of_mem (·.key) hit) this
        | none => simp
      · have hrest := ih (List.nodup_cons.1 hnd).2 hmem
        rw [hrest]

/-- C1: after warmup, cache consultation follows the three-rule
partial-knowledge semantics: a known-deny key blocks, all-known-allow keys
hit with allow, otherwise the request is a miss handled by the live-check
fallback. -/
theorem claim_C1_cache_consultation_rules (cfg : Config) (up : Upstream) (s : ProxyState)
    (req : AllowRequest) (hw : s.warmUp = false) :
    (cacheDeny s.currentCache (resolveReq cfg req) →
      Check cfg up s req =
        (.ok { allow := false, status := "success", message := "Cache Hit: Blocked" },
         trackKeys s (resolveReq cfg req), [])) ∧
    (¬cacheDeny s.currentCache (resolveReq cfg req) →
      cacheAllAllow s.currentCache (resolveReq cfg req) →
      requestKeys (resolveReq cfg req) ≠ [] →
      Check cfg up s req =
        (.ok { allow := true, status := "success", message := "Cache Hit" },
         trackKeys s (resolveReq cfg req), [])) ∧
    (¬cacheDeny s.currentCache (resolveReq cfg req) →
      ¬cacheAllAllow s.currentCache (resolveReq cfg req) →
      Check cfg up s req =
        checkMiss up (trackKeys s (resolveReq cfg req)) (resolveReq cfg req)) := by
  refine ⟨fun hd => ?_, fun hd ha hne => ?_, fun hd ha => ?_⟩
  · simpa using Check_found cfg up s req false hw
      (getFromCache_deny _ _ hd)
  · simpa using Check_found cfg up s req true hw
      (getFromCache_allAllow _ _ hd ha hne)
  · exact Check_missPath cfg up s req hw (getFromCache_missOf _ _ hd ha)

/-- C1 witness: the three rules at concrete inputs over the cache
(1.2.3.4 denied, 5.6.7.8 allowed, 9.9.9.9 unknown). -/
theorem claim_C1_witness :
    Check cfgPlain upNone sCached reqIp1 =
      (.ok { allow := false, status := "success", message := "Cache Hit: Blocked" },
       trackKeys sCached (resolveReq cfgPlain reqIp1), []) ∧
    Check cfgPlain upNone sCached reqIp2 =
      (.ok { allow := true, status := "success", message := "Cache Hit" },
       trackKeys sCached (resolveReq cfgPlain reqIp2), []) ∧
    Check cfgPlain upNone sCached reqIp3 =
      checkMiss upNone (trackKeys sCached (resolveReq cfgPlain reqIp3))
        (resolveReq cfgPlain reqIp3) :=
  ⟨(claim_C1_cache_consultation_rules cfgPlain upNone sCached reqIp1 rfl).1 (by decide),
   (claim_C1_cache_consultation_rules cfgPlain upNone sCached reqIp2 rfl).2.1
     (by decide) (by decide) (by decide),
   (claim_C1_cache_consultation_rules cfgPlain upNone sCached reqIp3 rfl).2.2
     (by decide) (by decide)⟩

/-- C2 counterexample: the upstream returns an entry for the only requested
key ("1.2.3.4", allow) plus an entry for an unrequested key with verdict
deny; the live response is Blocked (allow=false), yet the immediately
repeated identical Check is a cache hit with allow=true — not the same
verdict. -/
theorem claim_C2_counterexample :
    upExtraDeny ["1.2.3.4"] = .ok [⟨"1.2.3.4", true⟩, ⟨"9.9.9.9", false⟩] ∧
    (Check cfgPlain upExtraDeny sFresh reqIp1).1 =
      .ok { allow := false, status := "success", message := "Blocked (Live Check)" } ∧
    (Check cfgPlain upExtraDeny sFresh reqIp1).2.2 = [["1.2.3.4"]] ∧
    (Check cfgPlain upExtraDeny (Check cfgPlain upExtraDeny sFresh reqIp1).2.1 reqIp1).1 =
      .ok { allow := true, status := "success", message := "Cache Hit" } ∧
    (Check cfgPlain upExtraDeny (Check cfgPlain upExtraDeny sFresh reqIp1).2.1 reqIp1).2.2 =
      [] :=
  ⟨rfl, rfl, rfl, rfl, rfl⟩

/-- C2 (amended): a cache miss with a non-empty key list and a successful
upstream call writes every returned pair into the current cache (later
entries overwriting earlier ones, other keys untouched), responds with the
AND of the returned verdicts and the Live Check message; and — provided the
returned entries cover exactly the requested keys, one entry per key — the
immediately repeated identical Check is a cache hit with the same verdict and
no further upstream call. -/
theorem claim_C2_live_check_and_repeat (cfg : Config) (up : Upstream) (s : ProxyState)
    (req : AllowRequest) (results : List BatchAllowResponseItem)
    (hw : s.warmUp = false)
    (hmiss : getFromCache s.currentCache (resolveReq cfg req) = (false, false))
    (hne : requestKeys (resolveReq cfg req) ≠ [])
    (hu : up (requestKeys (resolveReq cfg req)) = .ok results) :
    Check cfg up s req =
      (.ok { allow := results.all (·.allow), status := "success",
             message := if results.all (·.allow) then "Allowed (Live Check)"
               else "Blocked (Live Check)" },
       { trackKeys s (resolveReq cfg req) with
           currentCache := insertResults s.currentCache results },
       [requestKeys (resolveReq cfg req)]) ∧
    (∀ q, (insertResults s.currentCache results).lookup q =
        (lastWrite results q).or (s.currentCache.lookup q)) ∧
    ((∀ k ∈ requestKeys (resolveReq cfg req), k ∈ results.map (·.key)) →
     (∀ item ∈ results, item.key ∈ requestKeys (resolveReq cfg req)) →
     (results.map (·.key)).Nodup →
     Check cfg up
       { trackKeys s (resolveReq cfg req) with
           currentCache := insertResults s.currentCache results } req =
       (.ok { allow := results.all (·.allow), status := "success",
              message := if results.all (·.allow) then "Cache Hit"
                else "Cache Hit: Blocked" },
        trackKeys { trackKeys s (resolveReq cfg req) with
            currentCache := insertResults s.currentCache results } (resolveReq cfg req),
        [])) := by
  refine ⟨?_, fun q => lookup_insertResults results s.currentCache q, ?_⟩
  · rw [Check_missPath cfg up s req hw hmiss, checkMiss_ok up _ _ results hne hu]
    rfl
  · intro hcover hsub hnd
    have hw' : ({ trackKeys s (resolveReq cfg req) with
        currentCache := insertResults s.currentCache results } : ProxyState).warmUp = false := hw
    cases hagg : results.all (·.allow) with
    | true =>
        have hAll : cacheAllAllow (insertResults s.currentCache results)
            (resolveReq cfg req) := by
          intro k hk
          obtain ⟨v, hv⟩ := Option.isSome_iff_exists.1 (lastWrite_isSome_of_mem (hcover k hk))
          obtain ⟨item, hitem, hkey, hallow⟩ := lastWrite_some hv
          have : item.allow = true := by
            have := List.all_eq_true.1 hagg item hitem
            simpa using this
          have hvt : v = true := hallow ▸ this
          rw [lookup_insertResults, hv, hvt]
          rfl
        have hNoDeny : ¬cacheDeny (insertResults s.currentCache results)
            (resolveReq cfg req) := by
          rintro ⟨k, hk, hl⟩
          rw [hAll k hk] at hl
          simp at hl
        have := Check_found cfg up _ req true hw'
          (getFromCache_allAllow _ _ hNoDeny hAll hne)
        simpa using this
    | false =>
        obtain ⟨item, hitem, hfalse⟩ := by
          simpa using List.all_eq_false.1 hagg
        have hDeny : cacheDeny (insertResults s.currentCache results)
            (resolveReq cfg req) := by
          refine ⟨item.key, hsub item hitem, ?_⟩
          rw [lookup_insertResults, lastWrite_of_nodupKeys hnd hitem]
          simp [hfalse]
        have := Check_found cfg up _ req false hw' (getFromCache_deny _ _ hDeny)
        simpa using this

/-- C2 witness for the amended theorem: with an empty cache and an upstream
answering exactly the requested key, a miss on 9.9.9.9 live-checks and the
repeat is a cache hit with the same verdict. -/
theorem claim_C2_witness :
    Check cfgPlain upAllowAll sFresh reqIp3 =
      (.ok { allow := true, status := "success", message := "Allowed (Live Check)" },
       { trackKeys sFresh (resolveReq cfgPlain reqIp3) with
           currentCache := insertResults sFresh.currentCache resIp3 },
       [requestKeys (resolveReq cfgPlain reqIp3)]) ∧
    Check cfgPlain upAllowAll
      { trackKeys sFresh (resolveReq cfgPlain reqIp3) with
          currentCache := insertResults sFresh.currentCache resIp3 } reqIp3 =
      (.ok { allow := true, status := "success", message := "Cache Hit" },
       trackKeys { trackKeys sFresh (resolveReq cfgPlain reqIp3) with
           currentCache := insertResults sFresh.currentCache resIp3 }
         (resolveReq cfgPlain reqIp3),
       []) := by
  have h := claim_C2_live_check_and_repeat cfgPlain upAllowAll sFresh reqIp3
    resIp3 rfl (by decide) (by decide) rfl
  exact ⟨by simpa using h.1, by simpa using h.2.2 (by decide) (by decide) (by decide)⟩

/-- C3: a cache miss with an empty key list returns the "No keys provided"
error response without any upstream call; a failed upstream batch call is
surfaced to the caller and the current cache is left unchanged (only the
tracking set was touched). -/
theorem claim_C3_miss_errors (cfg : Config) (up : Upstream) (s : ProxyState)
    (req : AllowRequest) (hw : s.warmUp = false)
    (hmiss : getFromCache s.currentCache (resolveReq cfg req) = (false, false)) :
    (requestKeys (resolveReq cfg req) = [] →
      Check cfg up s req =
        (.ok { allow := false, status := "error", message := "No keys provided" },
         trackKeys s (resolveReq cfg req), []) ∧
      (Check cfg up s req).2.1.currentCache = s.currentCache) ∧
    (∀ e, requestKeys (resolveReq cfg req) ≠ [] →
      up (requestKeys (resolveReq cfg req)) = .error e →
      Check cfg up s req =
        (.error e, trackKeys s (resolveReq cfg req), [requestKeys (resolveReq cfg req)]) ∧
      (Check cfg up s req).2.1.currentCache = s.currentCache) := by
  constructor
  · intro hk
    have h := (Check_missPath cfg up s req hw hmiss).trans
      (checkMiss_noKeys up _ _ hk)
    exact ⟨h, by rw [h]; exact trackKeys_currentCache s _⟩
  · intro e hne hu
    have h := (Check_missPath cfg up s req hw hmiss).trans
      (checkMiss_error up _ _ e hne hu)
    exact ⟨h, by rw [h]; exact trackKeys_currentCache s _⟩

/-- C3 witness: an all-empty request errors without an upstream call, and an
upstream failure for 9.9.9.9 propagates leaving the cache unchanged. -/
theorem claim_C3_witness :
    (Check cfgPlain upNone sFresh reqNone =
      (.ok { allow := false, status := "error", message := "No keys provided" },
       trackKeys sFresh (resolveReq cfgPlain reqNone), []) ∧
     (Check cfgPlain upNone sFresh reqNone).2.1.currentCache = sFresh.currentCache) ∧
    (Check cfgPlain upNone sCached reqIp3 =
      (.error "upstream unreachable", trackKeys sCached (resolveReq cfgPlain reqIp3),
       [requestKeys (resolveReq cfgPlain reqIp3)]) ∧
     (Check cfgPlain upNone sCached reqIp3).2.1.currentCache = sCached.currentCache) :=
  ⟨(claim_C3_miss_errors cfgPlain upNone sFresh reqNone rfl (by decide)).1 (by decide),
   (claim_C3_miss_errors cfgPlain upNone sCached reqIp3 rfl (by decide)).2
     "upstream unreachable" (by decide) rfl⟩

lemma gfcCore_noneLookups (a b c : Bool) : gfcCore a none b none c none = (false, false) := by
  revert a b c
  decide

lemma getFromCache_nil (r : AllowRequest) : getFromCache [] r = (false, false) := by
  rw [getFromCache_eq_core]
  exact gfcCore_noneLookups _ _ _

/-- C4: every swap turns warmup off; a pending cache is installed and cleared,
otherwise a fresh empty map is installed — so the old current cache never
survives the window boundary, and after a swap with no pending cache every
Check falls through to the miss path. -/
theorem claim_C4_swap (s : ProxyState) :
    (swapCache s).warmUp = false ∧
    (∀ p, s.pendingCache = some p →
      swapCache s = { currentCache := p, pendingCache := none,
                      batchedKeys := s.batchedKeys, warmUp := false }) ∧
    (s.pendingCache = none →
      swapCache s = { currentCache := [], pendingCache := none,
                      batchedKeys := s.batchedKeys, warmUp := false }) ∧
    (swapCache s).currentCache = s.pendingCache.getD [] ∧
    (s.pendingCache = none → ∀ cfg up req,
      Check cfg up (swapCache s) req =
        checkMiss up (trackKeys (swapCache s) (resolveReq cfg req)) (resolveReq cfg req)) := by
  refine ⟨?_, fun p hp => ?_, fun hp => ?_, ?_, fun hp cfg up req => ?_⟩
  · unfold swapCache; cases s.pendingCache <;> rfl
  · unfold swapCache; rw [hp]
  · unfold swapCache; rw [hp]
  · unfold swapCache; cases s.pendingCache <;> rfl
  · have hcc : (swapCache s).currentCache = [] := by unfold swapCache; rw [hp]
    have hw : (swapCache s).warmUp = false := by
      unfold swapCache; cases s.pendingCache <;> rfl
    exact Check_missPath cfg up (swapCache s) req hw (by rw [hcc]; exact getFromCache_nil _)

/-- C4 witness: swapping a state with a pending cache installs it; swapping a
state without one installs the empty map and a subsequent Check misses. -/
theorem claim_C4_witness :
    swapCache { currentCache := [("9.9.9.9", true)],
                pendingCache := some [("1.2.3.4", false)],
                batchedKeys := ["k"], warmUp := true } =
      { currentCache := [("1.2.3.4", false)], pendingCache := none,
        batchedKeys := ["k"], warmUp := false } ∧
    swapCache sCached =
      { currentCache := [], pendingCache := none,
        batchedKeys := sCached.batchedKeys, warmUp := false } ∧
    Check cfgPlain upNone (swapCache sCached) reqIp1 =
      checkMiss upNone (trackKeys (swapCache sCached) (resolveReq cfgPlain reqIp1))
        (resolveReq cfgPlain reqIp1) :=
  ⟨(claim_C4_swap _).2.1 [("1.2.3.4", false)] rfl,
   (claim_C4_swap sCached).2.2.1 rfl,
   (claim_C4_swap sCached).2.2.2.2 rfl cfgPlain upNone reqIp1⟩

/-- C5: prefetch snapshots the tracking set as the batch key list and resets
it before the upstream call; an empty snapshot makes no upstream call; a
failed upstream call leaves the pending cache (and the rest of the state
other than the tracking set) untouched. -/
theorem claim_C5_prefetch (up : Upstream) (s : ProxyState) :
    ((prefetch up s).1.batchedKeys = []) ∧
    (s.batchedKeys = [] → prefetch up s = ({ s with batchedKeys := [] }, [])) ∧
    (s.batchedKeys ≠ [] → (prefetch up s).2 = [s.batchedKeys]) ∧
    (∀ e, up s.batchedKeys = .error e →
      (prefetch up s).1 = { s with batchedKeys := [] }) ∧
    (prefetch up s).1.currentCache = s.currentCache ∧
    (prefetch up s).1.warmUp = s.warmUp := by
  by_cases hk : s.batchedKeys = []
  · refine ⟨?_, fun _ => ?_, fun hne => absurd hk hne, fun e he => ?_, ?_, ?_⟩ <;>
      simp [prefetch, hk]
  · cases hu : up s.batchedKeys with
    | error e =>
        refine ⟨?_, fun h => absurd h hk, fun _ => ?_, fun e' he' => ?_, ?_, ?_⟩ <;>
          simp [prefetch, hk, hu]
    | ok results =>
        refine ⟨?_, fun h => absurd h hk, fun _ => ?_, fun e' he' => ?_, ?_, ?_⟩
        · simp [prefetch, hk, hu]
        · simp [prefetch, hk, hu]
        · exact absurd he' (by simp)
        · simp [prefetch, hk, hu]
        · simp [prefetch, hk, hu]

/-- C5 witness: a tracked key is drained into exactly one batch call even
when the upstream fails, and an empty tracking set causes no call. -/
theorem claim_C5_witness :
    (prefetch upNone sPre).1 = { sPre with batchedKeys := [] } ∧
    (prefetch upNone sPre).2 = [sPre.batchedKeys] ∧
    prefetch upNone sFresh = ({ sFresh with batchedKeys := [] }, []) :=
  ⟨(claim_C5_prefetch upNone sPre).2.2.2.1 "upstream unreachable" rfl,
   (claim_C5_prefetch upNone sPre).2.2.1 (by decide),
   (claim_C5_prefetch upNone sFresh).2.1 rfl⟩

lemma mem_setInsert_self (l : List String) (k : String) : k ∈ setInsert l k := by
  unfold setInsert; by_cases h : k ∈ l <;> simp [h]

lemma mem_setInsert_of_mem (l : List String) (k q : String) (h : q ∈ l) :
    q ∈ setInsert l k := by
  unfold setInsert; by_cases h2 : k ∈ l <;> simp [h, h2]

lemma mem_insertIf {l : List String} {q : String} (c : Prop) [Decidable c] (k : String)
    (h : q ∈ l) : q ∈ (if c then setInsert l k else l) := by
  split
  · exact mem_setInsert_of_mem _ _ _ h
  · exact h

lemma mem_trackKeys (s : ProxyState) (r : AllowRequest) (k : String)
    (h : k ∈ requestKeys r) : k ∈ (trackKeys s r).batchedKeys := by
  show k ∈ (if r.userAgent ≠ "" then
      setInsert (if r.email ≠ "" then
          setInsert (if r.ipAddress ≠ "" then setInsert s.batchedKeys r.ipAddress
            else s.batchedKeys) r.email
        else if r.ipAddress ≠ "" then setInsert s.batchedKeys r.ipAddress
          else s.batchedKeys) (CompressUserAgent r.userAgent)
    else if r.email ≠ "" then
        setInsert (if r.ipAddress ≠ "" then setInsert s.batchedKeys r.ipAddress
          else s.batchedKeys) r.email
      else if r.ipAddress ≠ "" then setInsert s.batchedKeys r.ipAddress
        else s.batchedKeys)
  rcases (mem_requestKeys r k).1 h with ⟨hne, rfl⟩ | ⟨hne, rfl⟩ | ⟨hne, rfl⟩
  · refine mem_insertIf _ _ (mem_insertIf _ _ ?_)
    rw [if_pos hne]
    exact mem_setInsert_self _ _
  · refine mem_insertIf _ _ ?_
    rw [if_pos hne]
    exact mem_setInsert_self _ _
  · rw [if_pos hne]
    exact mem_setInsert_self _ _

/-- C6: during warmup every Check returns the warmup response without
consulting the cache (the response does not depend on the cache contents) or
the upstream (no batch call), and the resolved request's non-empty keys are
still inserted into the tracking set. -/
theorem claim_C6_warmup_allows_and_tracks (cfg : Config) (up : Upstream) (s : ProxyState)
    (req : AllowRequest) (hw : s.warmUp = true) :
    Check cfg up s req =
      (.ok { allow := true, status := "success", message := "Warmup: Allowed" },
       trackKeys s (resolveReq cfg req), []) ∧
    ∀ k ∈ requestKeys (resolveReq cfg req), k ∈ (Check cfg up s req).2.1.batchedKeys := by
  have h := Check_warmup cfg up s req hw
  refine ⟨h, fun k hk => ?_⟩
  rw [h]
  exact mem_trackKeys s _ k hk

/-- C6 witness: a warmup Check over a non-trivial cache allows and tracks
the IP key. -/
theorem claim_C6_witness :
    Check cfgPlain upNone { sCached with warmUp := true } reqIp1 =
      (.ok { allow := true, status := "success", message := "Warmup: Allowed" },
       trackKeys { sCached with warmUp := true } (resolveReq cfgPlain reqIp1), []) ∧
    "1.2.3.4" ∈ (Check cfgPlain upNone { sCached with warmUp := true } reqIp1).2.1.batchedKeys :=
  ⟨(claim_C6_warmup_allows_and_tracks cfgPlain upNone _ reqIp1 rfl).1,
   (claim_C6_warmup_allows_and_tracks cfgPlain upNone _ reqIp1 rfl).2 "1.2.3.4" (by decide)⟩

lemma Check_state_warmUp (cfg : Config) (up : Upstream) (s : ProxyState) (req : AllowRequest) :
    (Check cfg up s req).2.1.warmUp = s.warmUp := by
  unfold Check
  by_cases hw : s.warmUp
  · simp [trackKeys_warmUp, hw]
  · rcases hg : getFromCache (trackKeys s (resolveReq cfg req)).currentCache
        (resolveReq cfg req) with ⟨d, found⟩
    cases found
    · simp [trackKeys_warmUp, hw, hg]
      unfold checkMiss
      by_cases hk : requestKeys (resolveReq cfg req) = []
      · simp [hk, trackKeys_warmUp, hw]
      · cases hu : up (requestKeys (resolveReq cfg req)) with
        | error e => simp [hk, hu, trackKeys_warmUp, hw]
        | ok results => simp [hk, hu, trackKeys_warmUp, hw]
    · simp [trackKeys_warmUp, hw, hg]

lemma prefetch_warmUp (up : Upstream) (s : ProxyState) :
    (prefetch up s).1.warmUp = s.warmUp := by
  unfold prefetch
  by_cases hk : s.batchedKeys = []
  · simp [hk]
  · cases hu : up s.batchedKeys <;> simp [hk, hu]

lemma swapCache_warmUp (s : ProxyState) : (swapCache s).warmUp = false := by
  unfold swapCache; cases s.pendingCache <;> rfl

lemma applyOp_warmUp (cfg : Config) (up : Upstream) (s : ProxyState) (op : EngineOp) :
    (applyOp cfg up s op).warmUp = (s.warmUp && !op.isSwap) := by
  cases op with
  | check req => simp [applyOp, EngineOp.isSwap, Check_state_warmUp]
  | doPrefetch => simp [applyOp, EngineOp.isSwap, prefetch_warmUp]
  | doSwap => simp [applyOp, EngineOp.isSwap, swapCache_warmUp]

lemma runOps_warmUp (cfg : Config) (up : Upstream) (s : ProxyState) (ops : List EngineOp) :
    (runOps cfg up s ops).warmUp = (s.warmUp && !ops.any EngineOp.isSwap) := by
  induction ops generalizing s with
  | nil => simp [runOps]
  | cons op rest ih =>
      have step : runOps cfg up s (op :: rest) = runOps cfg up (applyOp cfg up s op) rest := rfl
      rw [step, ih, applyOp_warmUp]
      cases hsw : op.isSwap <;> simp [List.any_cons, hsw]

/-- C7: warmup is monotonic — it is true at engine creation and, after any
sequence of Check, prefetch and swap steps, it is false exactly when the
sequence contains a swap: the transition happens at the first swap and is
never undone. -/
theorem claim_C7_warmup_monotonic (cfg : Config) (up : Upstream) (ops : List EngineOp) :
    initialState.warmUp = true ∧
    (runOps cfg up initialState ops).warmUp = !ops.any EngineOp.isSwap :=
  ⟨rfl, by rw [runOps_warmUp]; rfl⟩

lemma digestBytes_length (t : Nat × Nat × Nat × Nat × Nat × Nat × Nat × Nat) :
    (digestBytes t).length = 32 := by
  obtain ⟨a, b, c, d, e, f, g, h⟩ := t
  simp [digestBytes, wordBytes]

lemma sha256Bytes_length (msg : List Nat) : (sha256Bytes msg).length = 32 :=
  digestBytes_length _

lemma hmacSha256_length (key msg : List Nat) : (hmacSha256 key msg).length = 32 :=
  sha256Bytes_length _

lemma hexDigit_mem (n : Nat) : hexDigit n ∈ hexChars := by
  unfold hexDigit
  have h : n % 16 < 16 := Nat.mod_lt _ (by norm_num)
  set m := n % 16 with hm
  interval_cases m <;> decide

lemma hexEncode_length (bs : List Nat) : (hexEncode bs).length = 2 * bs.length := by
  show ((bs.map (fun b => [hexDigit (b / 16), hexDigit b])).flatten).length = 2 * bs.length
  induction bs with
  | nil => rfl
  | cons b tl ih =>
      simp only [List.map_cons, List.flatten_cons, List.length_append, ih,
        List.length_cons]
      simp
      omega

lemma hexEncode_chars (bs : List Nat) : ∀ c ∈ (hexEncode bs).data, c ∈ hexChars := by
  show ∀ c ∈ (bs.map (fun b => [hexDigit (b / 16), hexDigit b])).flatten, c ∈ hexChars
  intro c hc
  rcases List.mem_flatten.1 hc with ⟨l, hl, hcl⟩
  rcases List.mem_map.1 hl with ⟨b, _, rfl⟩
  rcases (by simpa using hcl : c = hexDigit (b / 16) ∨ c = hexDigit b) with rfl | rfl <;>
    exact hexDigit_mem _

lemma OneWayKeyedHash_length (key : List Nat) (data : String) :
    (OneWayKeyedHash key data).length = 32 := by
  unfold OneWayKeyedHash
  rw [hexEncode_length, List.length_take, hmacSha256_length]
  norm_num

lemma OneWayKeyedHash_chars (key : List Nat) (data : String) :
    ∀ c ∈ (OneWayKeyedHash key data).data, c ∈ hexChars := by
  unfold OneWayKeyedHash
  exact hexEncode_chars _

lemma decDigitsF_digits (fuel : Nat) : ∀ (n : Nat), ∀ c ∈ decDigitsF fuel n, c.isDigit := by
  induction fuel with
  | zero => intro n c hc; simp [decDigitsF] at hc
  | succ f ih =>
      intro n c hc
      cases n with
      | zero => simp [decDigitsF] at hc
      | succ m =>
          have hc2 : c ∈ decDigitsF f ((m + 1) / 10) ++
              [hexChars.getD ((m + 1) % 10) '0'] := hc
          rcases List.mem_append.1 hc2 with h | h
          · exact ih _ c h
          · have hh : c = hexChars.getD ((m + 1) % 10) '0' := by simpa using h
            subst hh
            have h10 : (m + 1) % 10 < 10 := Nat.mod_lt _ (by norm_num)
            set d := (m + 1) % 10 with hd
            interval_cases d <;> decide

lemma natToDec_digits (n : Nat) : ∀ c ∈ (natToDec n).data, c.isDigit := by
  unfold natToDec
  split
  · intro c hc
    have : c = '0' := by simpa using hc
    subst this
    decide
  · exact decDigitsF_digits n n

lemma natToDec_length_pos (n : Nat) : 1 ≤ (natToDec n).length := by
  unfold natToDec
  split
  · decide
  · rename_i hn
    show 1 ≤ (decDigitsF n n).length
    cases n with
    | zero => exact absurd rfl hn
    | succ m =>
        show 1 ≤ (decDigitsF m ((m + 1) / 10) ++ [hexChars.getD ((m + 1) % 10) '0']).length
        simp

lemma OneWayKeyedHashNumeric_digits (key : List Nat) (data : String) :
    ∀ c ∈ (OneWayKeyedHashNumeric key data).data, c.isDigit :=
  natToDec_digits _

lemma OneWayKeyedHashNumeric_length_pos (key : List Nat) (data : String) :
    1 ≤ (OneWayKeyedHashNumeric key data).length :=
  natToDec_length_pos _

/-- C8: EncryptEmail returns the input unchanged when the email is empty, the
flag is off or the key is empty; otherwise the hex format is the lowercase
hex of the first 16 bytes of HMAC-SHA256(key, email) — exactly 32 hex
characters — and the numeric format is the base-10 rendering of those 16
bytes read as a big-endian unsigned integer — a non-empty digit string.
(Determinism is immediate: the embedding is a pure function of key and
input.) -/
theorem claim_C8_pseudonymize_email (cfg : Config) (email : String) :
    ((email = "" ∨ cfg.emailEncryptionEnabled = false ∨ cfg.emailEncryptionKey = "") →
      EncryptEmail cfg email = email) ∧
    (email ≠ "" → cfg.emailEncryptionEnabled = true → cfg.emailEncryptionKey ≠ "" →
      (cfg.emailEncryptionFormat ≠ "numeric" →
        EncryptEmail cfg email =
          hexEncode ((hmacSha256 (strBytes cfg.emailEncryptionKey) (strBytes email)).take 16) ∧
        (EncryptEmail cfg email).length = 32 ∧
        ∀ c ∈ (EncryptEmail cfg email).data, c ∈ hexChars) ∧
      (cfg.emailEncryptionFormat = "numeric" →
        EncryptEmail cfg email =
          natToDec (beNat
            ((hmacSha256 (strBytes cfg.emailEncryptionKey) (strBytes email)).take 16)) ∧
        1 ≤ (EncryptEmail cfg email).length ∧
        ∀ c ∈ (EncryptEmail cfg email).data, c.isDigit)) := by
  constructor
  · intro h
    unfold EncryptEmail
    rw [if_pos h]
  · intro hne hen hkey
    have hcond : ¬(email = "" ∨ cfg.emailEncryptionEnabled = false ∨
        cfg.emailEncryptionKey = "") := by
      simp [hne, hen, hkey]
    constructor
    · intro hfmt
      have he : EncryptEmail cfg email =
          OneWayKeyedHash (strBytes cfg.emailEncryptionKey) email := by
        unfold EncryptEmail
        rw [if_neg hcond, if_neg hfmt]
      refine ⟨he, ?_, ?_⟩
      · rw [he]; exact OneWayKeyedHash_length _ _
      · rw [he]; exact OneWayKeyedHash_chars _ _
    · intro hfmt
      have he : EncryptEmail cfg email =
          OneWayKeyedHashNumeric (strBytes cfg.emailEncryptionKey) email := by
        unfold EncryptEmail
        rw [if_neg hcond, if_pos hfmt]
      refine ⟨he, ?_, ?_⟩
      · rw [he]; exact OneWayKeyedHashNumeric_length_pos _ _
      · rw [he]; exact OneWayKeyedHashNumeric_digits _ _

/-- C8 witness: the repository test fixture key and email, in both formats,
plus the disabled configuration returning the input unchanged. -/
theorem claim_C8_witness :
    EncryptEmail cfgHex "blocked@test.com" =
      hexEncode ((hmacSha256 (strBytes cfgHex.emailEncryptionKey)
        (strBytes "blocked@test.com")).take 16) ∧
    (EncryptEmail cfgHex "blocked@test.com").length = 32 ∧
    EncryptEmail cfgNum "blocked@test.com" =
      natToDec (beNat ((hmacSha256 (strBytes cfgNum.emailEncryptionKey)
        (strBytes "blocked@test.com")).take 16)) ∧
    EncryptEmail cfgPlain "blocked@test.com" = "blocked@test.com" :=
  ⟨((claim_C8_pseudonymize_email cfgHex "blocked@test.com").2 (by decide) rfl
      (by decide)).1 (by decide) |>.1,
   ((claim_C8_pseudonymize_email cfgHex "blocked@test.com").2 (by decide) rfl
      (by decide)).1 (by decide) |>.2.1,
   ((claim_C8_pseudonymize_email cfgNum "blocked@test.com").2 (by decide) rfl
      (by decide)).2 rfl |>.1,
   (claim_C8_pseudonymize_email cfgPlain "blocked@test.com").1 (by simp [cfgPlain])⟩

/-- C9: QueueLog replaces a non-empty email by its token (per the configured
format) before appending whenever a key is configured; reaching the batch
size triggers a flush that drains the whole buffer and posts it once in
insertion order, and the post-flush buffer is empty whatever the sink
answers — a failed batch is dropped, never reinserted. -/
theorem claim_C9_queue_log (cfg : Config) (sink : LogSink) (s : LoggerState)
    (req : LogRequest) (hkey : cfg.emailEncryptionKey ≠ "") (hemail : req.email ≠ "") :
    ((cfg.emailEncryptionFormat = "numeric" →
       queueLogEntry cfg req =
         { req with
             email := OneWayKeyedHashNumeric (strBytes cfg.emailEncryptionKey) req.email }) ∧
     (cfg.emailEncryptionFormat ≠ "numeric" →
       queueLogEntry cfg req =
         { req with
             email := OneWayKeyedHash (strBytes cfg.emailEncryptionKey) req.email })) ∧
    (cfg.logBatchSize ≤ ((s.buffer.length + 1 : Nat) : Int) →
      QueueLog cfg sink s req =
        ({ buffer := [] },
         [(s.buffer ++ [queueLogEntry cfg req],
           sink (s.buffer ++ [queueLogEntry cfg req]))])) ∧
    (¬cfg.logBatchSize ≤ ((s.buffer.length + 1 : Nat) : Int) →
      QueueLog cfg sink s req = ({ buffer := s.buffer ++ [queueLogEntry cfg req] }, [])) := by
  refine ⟨⟨fun hf => ?_, fun hf => ?_⟩, fun hle => ?_, fun hgt => ?_⟩
  · unfold queueLogEntry
    rw [if_pos ⟨hkey, hemail⟩, if_pos hf]
  · unfold queueLogEntry
    rw [if_pos ⟨hkey, hemail⟩, if_neg hf]
  · have hc : cfg.logBatchSize ≤ (s.buffer.length : Int) + 1 := by
      push_cast at hle
      exact hle
    unfold QueueLog triggerFlush
    simp [hc]
  · have hc : ¬cfg.logBatchSize ≤ (s.buffer.length : Int) + 1 := by
      push_cast at hgt
      exact hgt
    unfold QueueLog
    simp [hc]

set_option maxHeartbeats 1000000 in
/-- C9 witness: with batch size 2, queueing a second entry hashes its email,
drains both entries into a single posted batch in insertion order, and the
buffer ends empty both for a succeeding and for a failing sink. -/
theorem claim_C9_witness :
    QueueLog cfgLog2 sinkOk { buffer := [logA] } logBlocked =
      ({ buffer := [] },
       [([logA] ++ [queueLogEntry cfgLog2 logBlocked],
         sinkOk ([logA] ++ [queueLogEntry cfgLog2 logBlocked]))]) ∧
    QueueLog cfgLog2 sinkFail { buffer := [logA] } logBlocked =
      ({ buffer := [] },
       [([logA] ++ [queueLogEntry cfgLog2 logBlocked],
         sinkFail ([logA] ++ [queueLogEntry cfgLog2 logBlocked]))]) ∧
    QueueLog cfgLog2 sinkOk { buffer := [] } logBlocked =
      ({ buffer := [] ++ [queueLogEntry cfgLog2 logBlocked] }, []) :=
  ⟨(claim_C9_queue_log cfgLog2 sinkOk { buffer := [logA] } logBlocked
      (by decide) (by decide)).2.1 (by decide),
   (claim_C9_queue_log cfgLog2 sinkFail { buffer := [logA] } logBlocked
      (by decide) (by decide)).2.1 (by decide),
   (claim_C9_queue_log cfgLog2 sinkOk { buffer := [] } logBlocked
      (by decide) (by decide)).2.2 (by decide)⟩

set_option maxHeartbeats 1000000 in
/-- C10: the decision path gates pseudonymization on the enabled flag
(EncryptEmail is the identity whenever the flag is off, even with a key
configured) while the log path hashes whenever a key is configured,
regardless of the flag; with the repository test key configured and the flag
off, the same email enters the batch keys and the tracking set raw but is
hashed in queued log entries. -/
theorem claim_C10_gating_divergence :
    (∀ (cfg : Config) (e : String), cfg.emailEncryptionEnabled = false →
      EncryptEmail cfg e = e) ∧
    (∀ (cfg : Config) (req : LogRequest), cfg.emailEncryptionKey ≠ "" → req.email ≠ "" →
      (queueLogEntry cfg req).email =
        (if cfg.emailEncryptionFormat = "numeric" then
           OneWayKeyedHashNumeric (strBytes cfg.emailEncryptionKey) req.email
         else OneWayKeyedHash (strBytes cfg.emailEncryptionKey) req.email)) ∧
    (EncryptEmail cfgFlagOff "blocked@test.com" = "blocked@test.com" ∧
     requestKeys (resolveReq cfgFlagOff reqEmailOnly) = ["blocked@test.com"] ∧
     "blocked@test.com" ∈
       (trackKeys initialState (resolveReq cfgFlagOff reqEmailOnly)).batchedKeys ∧
     (queueLogEntry cfgFlagOff logBlocked).email =
       OneWayKeyedHash (strBytes testKey) "blocked@test.com" ∧
     (queueLogEntry cfgFlagOff logBlocked).email ≠ "blocked@test.com") := by
  refine ⟨fun cfg e h => ?_, fun cfg req hk he => ?_, ?_⟩
  · unfold EncryptEmail
    rw [if_pos (Or.inr (Or.inl h))]
  · by_cases hf : cfg.emailEncryptionFormat = "numeric" <;>
      simp [queueLogEntry, hk, he, hf]
  · refine ⟨by decide, by decide, by decide, by decide, by decide⟩

set_option maxHeartbeats 1000000 in
/-- C10 witness: the two gates at the divergent configuration. -/
theorem claim_C10_witness :
    EncryptEmail cfgFlagOff "x@y" = "x@y" ∧
    (queueLogEntry cfgFlagOff logBlocked).email =
      (if cfgFlagOff.emailEncryptionFormat = "numeric" then
         OneWayKeyedHashNumeric (strBytes cfgFlagOff.emailEncryptionKey) "blocked@test.com"
       else OneWayKeyedHash (strBytes cfgFlagOff.emailEncryptionKey) "blocked@test.com") :=
  ⟨claim_C10_gating_divergence.1 cfgFlagOff "x@y" rfl,
   claim_C10_gating_divergence.2.1 cfgFlagOff logBlocked (by decide) (by decide)⟩

end Apigate
